import Mathlib

/-!
# Shallow embedding of the brain-bridge study-plan engine

This file embeds, in Lean 4, the study-plan generation and caching code of the
brain-bridge backend (`service/study_plans.py`, `controller/study_plans.py`,
`service/redis.py`, `util/error.py`, `model/study_plans.py`) and proves the
specification claims about it.

Conventions of the embedding:
* Python `int` is `Int`; Python floor division `//` (by a positive divisor) is
  `Int` division `/` (`Int.ediv`), which agrees with mathematical floor
  division for positive divisors; every division in this code has a positive
  divisor.
* Python dictionaries keyed by `int` are total functions `Int → Option Int`
  updated pointwise (`dictSet`).
* Python's stable `sorted(key=...)` is `List.insertionSort` with the non-strict
  key order, which is the unique stable sort for a total preorder key.
* Fallible code paths (list indexing that could raise `IndexError`) return
  `Option`; database/cache state is passed explicitly.
-/

namespace BrainBridge

/-- `model/topics.py`: a `Topic` row (the fields read by the allocation engine). -/
structure Topic where
  id : Int
  subject : String
  order : Int
deriving DecidableEq, Repr

/-- `model/courses.py`: a `Course` row with its topics, which the ORM returns
ordered by `Topic.order` (`order_by="Topic.order"`). -/
structure Course where
  id : Int
  name : String
  type : String
  topics : List Topic
deriving DecidableEq, Repr

/-- `model/study_plans.py`: the `DayOfWeek` enum (five weekdays). -/
inductive DayOfWeek where
  | monday | tuesday | wednesday | thursday | friday
deriving DecidableEq, Repr

/-- The list `days` built at the top of `allocate_subjects_to_days`. -/
def days : List DayOfWeek :=
  [.monday, .tuesday, .wednesday, .thursday, .friday]

/-- Position of a weekday in `days` (the loop index `i` of the Python
`enumerate(days)`). -/
def dayIdx : DayOfWeek → Nat
  | .monday => 0
  | .tuesday => 1
  | .wednesday => 2
  | .thursday => 3
  | .friday => 4

/-- The dictionary returned by `get_weekly_frequency`. -/
structure FreqStrategy where
  strategy : String
  min_appearances : Int
  max_appearances : Int
deriving DecidableEq, Repr

/-- `StudyPlanService.get_weekly_frequency`: frequency strategy from the
subject count. -/
def get_weekly_frequency (num_subjects : Nat) : FreqStrategy :=
  if num_subjects ≤ 2 then
    ⟨"frequent", 2, 3⟩
  else if num_subjects ≤ 4 then
    ⟨"balanced", 1, 2⟩
  else if num_subjects ≤ 6 then
    ⟨"rotate", 1, 1⟩
  else
    ⟨"priority_rotate", 1, 1⟩

/-- One task dictionary  `\x7b"type": ..., "duration": ...\x7d` of
`generate_tasks`. -/
structure Task where
  type : String
  duration : Int
deriving DecidableEq, Repr

/-- `StudyPlanService.generate_tasks`.

The final adjustment pass is embedded faithfully:
* the scale-down branch writes `max(5, int(duration * (time / total)))` for
  each task; for the operand ranges reachable here the Python float
  computation equals `max 5 (duration * time / total)` over `Int` — for
  non-positive products both sides are clamped to `5`, and for positive
  products the double rounding error (< 10⁻¹⁴) is far smaller than the
  distance `1 / total` of the exact rational to the next integer, so the
  truncation cannot cross an integer boundary;
* the surplus branch indexes `tasks[0]` and `tasks[2]`; an out-of-range
  index (Python `IndexError`) is modelled as `none`. -/
def generate_tasks (daily_study_time : Int) : Option (List Task) :=
  let tasks : List Task :=
    if daily_study_time ≤ 30 then
      [⟨"reading", max 10 (daily_study_time / 2)⟩,
       ⟨"quiz", max 5 (daily_study_time - daily_study_time / 2)⟩]
    else if daily_study_time ≤ 45 then
      [⟨"reading", 15⟩, ⟨"flashcards", 10⟩, ⟨"quiz", 15⟩]
    else
      [⟨"reading", 20⟩, ⟨"flashcards", 15⟩, ⟨"quiz", 20⟩]
  let total_duration := (tasks.map Task.duration).sum
  if daily_study_time < total_duration then
    some (tasks.map fun tk =>
      { tk with duration := max 5 (tk.duration * daily_study_time / total_duration) })
  else if total_duration < daily_study_time then
    let extra_time := daily_study_time - total_duration
    match tasks.get? 0, tasks.get? 2 with
    | some t0, some t2 =>
        some ((tasks.set 0 { t0 with duration := t0.duration + extra_time / 2 }).set 2
          { t2 with duration := t2.duration + (extra_time - extra_time / 2) })
    | _, _ => none
  else
    some tasks

/-! ## Day allocator (`StudyPlanService.allocate_subjects_to_days`) -/

/-- Pointwise update of a Python dict keyed by `int`
(`subject_counts[key] = value`). -/
def dictSet (d : Int → Option Int) (key value : Int) : Int → Option Int :=
  fun x => if x = key then some value else d x

/-- The sort key `(0 if is_core else 1, strength)` of the local `sort_key`
closure.  `strength_ratings.get(course.id, 3)` is `(strength_ratings c.id).getD 3`;
Python's `course in core_courses` is list membership. -/
def sortKey (core_courses : List Course) (strength_ratings : Int → Option Int)
    (c : Course) : Nat × Int :=
  (if c ∈ core_courses then 0 else 1, (strength_ratings c.id).getD 3)

/-- Non-strict lexicographic comparison of sort keys.  Sorting with this
relation by a stable sort reproduces Python's stable `sorted(key=sort_key)`. -/
def keyLE (k k' : Nat × Int) : Prop :=
  k.1 < k'.1 ∨ (k.1 = k'.1 ∧ k.2 ≤ k'.2)

instance : DecidableRel keyLE := fun k k' => by
  unfold keyLE; infer_instance

/-- `sorted_subjects = sorted(all_subjects, key=sort_key)` (a stable sort). -/
def sortedSubjects (core_courses elective_courses : List Course)
    (strength_ratings : Int → Option Int) : List Course :=
  (core_courses ++ elective_courses).insertionSort fun a b =>
    keyLE (sortKey core_courses strength_ratings a)
      (sortKey core_courses strength_ratings b)

/-- First pass of the frequent/balanced branch: assign the policy minimum to
every subject, decrementing `remaining_slots` (initially `len(days) = 5`). -/
def minPass (min_appearances : Int) (sorted_subjects : List Course) :
    (Int → Option Int) × Int :=
  sorted_subjects.foldl
    (fun st s => (dictSet st.1 s.id min_appearances, st.2 - min_appearances))
    (fun _ => none, 5)

/-- Second pass: distribute the remaining slots to subjects in priority order,
capped at the policy maximum, stopping when no slots remain (the
`if remaining_slots <= 0: break`).  The lookup `subject_counts[subject.id]`
always finds a key here because `minPass` wrote one for every element of the
same list; a missing key is read as `0`. -/
def distributeExtra (max_appearances : Int) :
    List Course → (Int → Option Int) → Int → (Int → Option Int) × Int
  | [], counts, remaining => (counts, remaining)
  | s :: rest, counts, remaining =>
    if remaining ≤ 0 then (counts, remaining)
    else
      let cur := (counts s.id).getD 0
      let can_add := min remaining (max_appearances - cur)
      distributeExtra max_appearances rest (dictSet counts s.id (cur + can_add))
        (remaining - can_add)

/-- `while len(allocation_list) < len(days): allocation_list.extend(sorted_subjects)`.
Each iteration of the Python loop appends the whole (nonempty) subject list, so
at most five iterations run; `5` units of fuel are therefore exact. -/
def padTo5 : Nat → List Course → List Course → List Course
  | 0, _, acc => acc
  | fuel + 1, base, acc =>
    if acc.length < 5 then padTo5 fuel base (acc ++ base) else acc

/-- The frequent/balanced branch of `allocate_subjects_to_days`: compute the
per-subject appearance counts, build `allocation_list`, pad it, and assign it
positionally to the weekdays (`allocation[day] = allocation_list[i]` guarded by
`i < len(allocation_list)`). -/
def freqAlloc (freq : FreqStrategy) (sorted_subjects : List Course) :
    DayOfWeek → Option Course :=
  let first := minPass freq.min_appearances sorted_subjects
  let counts :=
    if 0 < first.2 then
      (distributeExtra freq.max_appearances sorted_subjects first.1 first.2).1
    else first.1
  let allocation_list :=
    padTo5 5 sorted_subjects
      (sorted_subjects.flatMap fun s => List.replicate ((counts s.id).getD 0).toNat s)
  fun d => allocation_list.get? (dayIdx d)

/-- The rotate/priority_rotate branch: `sorted_subjects[i % len(sorted_subjects)]`
for weekday index `i` (the subject list is nonempty whenever this branch runs). -/
def rotateAlloc (sorted_subjects : List Course) : DayOfWeek → Option Course :=
  fun d => sorted_subjects.get? (dayIdx d % sorted_subjects.length)

/-- The simultaneous assignment
`allocation[d1], allocation[d2] = allocation[d2], allocation[d1]`. -/
def swapAlloc (alloc : DayOfWeek → Option Course) (d1 d2 : DayOfWeek) :
    DayOfWeek → Option Course :=
  fun d => if d = d1 then alloc d2 else if d = d2 then alloc d1 else alloc d

/-- Inner search of the de-duplication pass: the first later weekday that is in
the allocation and holds a course with a different id than the current one. -/
def findSwapDay (alloc : DayOfWeek → Option Course) (cur : Course) :
    List DayOfWeek → Option DayOfWeek
  | [] => none
  | d :: rest =>
    match alloc d with
    | some c => if c.id ≠ cur.id then some d else findSwapDay alloc cur rest
    | none => findSwapDay alloc cur rest

/-- One step of the de-duplication pass for loop index `i ∈ range(1, 5)`:
if weekday `i` repeats weekday `i-1`'s course, swap it with the nearest later
differing weekday. -/
def dedupStep (alloc : DayOfWeek → Option Course) (i : Nat) :
    DayOfWeek → Option Course :=
  match days.get? i, days.get? (i - 1) with
  | some current_day, some prev_day =>
    match alloc current_day, alloc prev_day with
    | some c, some p =>
      if c.id = p.id then
        match findSwapDay alloc c (days.drop (i + 1)) with
        | some swap_day => swapAlloc alloc current_day swap_day
        | none => alloc
      else alloc
    | _, _ => alloc
  | _, _ => alloc

/-- The final `for i in range(1, len(day_list))` no-adjacent-repeat pass. -/
def dedupPass (alloc : DayOfWeek → Option Course) : DayOfWeek → Option Course :=
  (List.range' 1 4).foldl dedupStep alloc

/-- `StudyPlanService.allocate_subjects_to_days`.  The returned Python dict is
modelled as a function `DayOfWeek → Option Course` (`none` = key absent). -/
def allocate_subjects_to_days (core_courses elective_courses : List Course)
    (strength_ratings : Int → Option Int) : DayOfWeek → Option Course :=
  let all_subjects := core_courses ++ elective_courses
  if all_subjects.length = 0 then fun _ => none
  else
    let freq_strategy := get_weekly_frequency all_subjects.length
    let sorted_subjects := sortedSubjects core_courses elective_courses strength_ratings
    let alloc :=
      if freq_strategy.strategy ∈ ["frequent", "balanced"] then
        freqAlloc freq_strategy sorted_subjects
      else
        rotateAlloc sorted_subjects
    dedupPass alloc

/-- `StudyPlanService.select_topic_for_course`: first incomplete topic in
syllabus order, last topic as fallback, `none` for a course without topics. -/
def select_topic_for_course (course : Course) (completed_topic_ids : List Int) :
    Option Topic :=
  let available_topics := course.topics.filter fun t => decide (t.id ∉ completed_topic_ids)
  if available_topics.isEmpty then
    course.topics.getLast?
  else
    (available_topics.insertionSort fun a b => a.order ≤ b.order).head?

/-! ## Theorems: frequency table and task generator -/

/-- C8: for every subject count `n` with `1 ≤ n ≤ 8`, `get_weekly_frequency`
returns exactly the policy of the spec's table: `frequent` (min 2, max 3) for
`n ∈ {1,2}`, `balanced` (min 1, max 2) for `n ∈ {3,4}`, `rotate` (min 1,
max 1) for `n ∈ {5,6}`, and `priority_rotate` (min 1, max 1) for
`n ∈ {7,8}`. -/
theorem get_weekly_frequency_table (n : Nat) (h1 : 1 ≤ n) (h8 : n ≤ 8) :
    (n ≤ 2 → get_weekly_frequency n = ⟨"frequent", 2, 3⟩) ∧
    (3 ≤ n → n ≤ 4 → get_weekly_frequency n = ⟨"balanced", 1, 2⟩) ∧
    (5 ≤ n → n ≤ 6 → get_weekly_frequency n = ⟨"rotate", 1, 1⟩) ∧
    (7 ≤ n → get_weekly_frequency n = ⟨"priority_rotate", 1, 1⟩) := by
  interval_cases n <;> refine ⟨fun _ => ?_, fun _ _ => ?_, fun _ _ => ?_, fun _ => ?_⟩ <;>
    first
      | rfl
      | omega

/-- Closed instance of `get_weekly_frequency_table` at `n = 3`. -/
theorem get_weekly_frequency_table_witness :
    get_weekly_frequency 3 = ⟨"balanced", 1, 2⟩ :=
  (get_weekly_frequency_table 3 (by decide) (by decide)).2.1 (by decide) (by decide)

/-- C2 (counterexample): the claim predicts `generate_tasks 60` to be
reading 20, flashcards 15, quiz 25, but the surplus-distribution pass adds the
extra `60 - 55 = 5` minutes to the reading and quiz tasks, producing
reading 22, flashcards 15, quiz 23. -/
theorem generate_tasks_60_counterexample :
    generate_tasks 60 =
      some [⟨"reading", 22⟩, ⟨"flashcards", 15⟩, ⟨"quiz", 23⟩] ∧
    generate_tasks 60 ≠
      some [⟨"reading", 20⟩, ⟨"flashcards", 15⟩, ⟨"quiz", 25⟩] := by
  constructor <;> decide

/-- C2 (amended): for every `daily_study_time ≥ 55`, `generate_tasks` returns
three tasks of types reading, flashcards, quiz; the surplus
`e = daily_study_time − 55` over the base durations `20 + 15 + 20` is split
between reading (`+ e / 2`) and quiz (`+ (e − e / 2)`), so the durations are
`20 + e / 2`, `15`, `20 + (e − e / 2)` and sum exactly to
`daily_study_time`. -/
theorem generate_tasks_full_session (t : Int) (h : 55 ≤ t) :
    generate_tasks t =
      some [⟨"reading", 20 + (t - 55) / 2⟩, ⟨"flashcards", 15⟩,
        ⟨"quiz", 20 + ((t - 55) - (t - 55) / 2)⟩] ∧
    (20 + (t - 55) / 2) + 15 + (20 + ((t - 55) - (t - 55) / 2)) = t := by
  have h30 : ¬ t ≤ 30 := by omega
  have h45 : ¬ t ≤ 45 := by omega
  constructor
  · simp only [generate_tasks, if_neg h30, if_neg h45, List.map_cons, List.map_nil,
      List.sum_cons, List.sum_nil]
    rw [if_neg (by omega)]
    rcases eq_or_lt_of_le h with heq | hlt
    · rw [if_neg (by omega)]
      rw [← heq]
      norm_num
    · rw [if_pos (by omega)]
      simp only [List.get?, List.set, Option.some.injEq, List.cons.injEq,
        Task.mk.injEq, true_and, and_true]
      omega
  · omega

/-- Closed instance of `generate_tasks_full_session` at `t = 60`. -/
theorem generate_tasks_full_session_witness :
    generate_tasks 60 =
      some [⟨"reading", 22⟩, ⟨"flashcards", 15⟩, ⟨"quiz", 23⟩] := by
  have h := (generate_tasks_full_session 60 (by decide)).1
  rw [h]
  rfl

/-- C3 (counterexample): the claim predicts `generate_tasks 10` to be two
tasks reading `10 / 2 = 5` and quiz `5`, summing to `10`; but the code floors
the base durations at `max(10, 5) = 10` and `max(5, 5) = 5`, whose sum `15`
exceeds `10`, so the scale-down pass runs (it applies in every branch, not
only the non-small-time ones) and yields reading 6, quiz 5 — durations that
sum to 11, not 10. -/
theorem generate_tasks_10_counterexample :
    generate_tasks 10 = some [⟨"reading", 6⟩, ⟨"quiz", 5⟩] ∧
    generate_tasks 10 ≠ some [⟨"reading", 5⟩, ⟨"quiz", 5⟩] := by
  constructor <;> decide

/-- C3 (amended): for every `daily_study_time` with
`20 ≤ daily_study_time ≤ 30`, `generate_tasks` returns exactly the two tasks
reading `daily_study_time / 2` and quiz
`daily_study_time − daily_study_time / 2`, summing exactly to
`daily_study_time` (the adjustment pass is a no-op there; for
`0 < daily_study_time < 20` the 10/5-minute floors make the base sum exceed
the budget and the scale-down pass changes the durations). -/
theorem generate_tasks_small_time (t : Int) (h1 : 20 ≤ t) (h2 : t ≤ 30) :
    generate_tasks t =
      some [⟨"reading", t / 2⟩, ⟨"quiz", t - t / 2⟩] ∧
    t / 2 + (t - t / 2) = t := by
  have hr : max 10 (t / 2) = t / 2 := by omega
  have hq : max 5 (t - t / 2) = t - t / 2 := by omega
  constructor
  · simp only [generate_tasks, if_pos h2, hr, hq, List.map_cons, List.map_nil,
      List.sum_cons, List.sum_nil]
    rw [if_neg (by omega), if_neg (by omega)]
  · omega

/-- Closed instance of `generate_tasks_small_time` at `t = 30`. -/
theorem generate_tasks_small_time_witness :
    generate_tasks 30 = some [⟨"reading", 15⟩, ⟨"quiz", 15⟩] := by
  have h := (generate_tasks_small_time 30 (by decide) (by decide)).1
  rw [h]
  rfl

/-- C10: for `daily_study_time ≤ 30` the two base durations
`max(10, t / 2)` and `max(5, t − t / 2)` sum to at least `t`, so the
surplus-distribution branch (the only code indexing `tasks[2]`) never runs
while the task list has two elements; `generate_tasks` therefore never
performs an out-of-range access and is total (returns `some`) for every
integer input. -/
theorem generate_tasks_never_out_of_range (t : Int) :
    (t ≤ 30 → t ≤ max 10 (t / 2) + max 5 (t - t / 2)) ∧
    (generate_tasks t).isSome = true := by
  refine ⟨fun _ => by omega, ?_⟩
  by_cases h30 : t ≤ 30
  · have hge : t ≤ max 10 (t / 2) + max 5 (t - t / 2) := by omega
    simp only [generate_tasks, if_pos h30, List.map_cons, List.map_nil,
      List.sum_cons, List.sum_nil]
    split
    · rfl
    · rw [if_neg (by omega)]
      rfl
  · by_cases h45 : t ≤ 45
    · simp only [generate_tasks, if_neg h30, if_pos h45, List.map_cons,
        List.map_nil, List.sum_cons, List.sum_nil]
      split
      · rfl
      · split <;> rfl
    · simp only [generate_tasks, if_neg h30, if_neg h45, List.map_cons,
        List.map_nil, List.sum_cons, List.sum_nil]
      split
      · rfl
      · split <;> rfl

/-- Closed instance of `generate_tasks_never_out_of_range` at `t = 7`. -/
theorem generate_tasks_never_out_of_range_witness :
    (generate_tasks 7).isSome = true :=
  (generate_tasks_never_out_of_range 7).2

/-! ## Theorems: topic selector -/

/-- The head of a filtered list is the first element satisfying the predicate. -/
theorem head_of_filter {α : Type} (p : α → Bool) (l : List α) :
    (l.filter p).head? = l.find? p := by
  induction l with
  | nil => rfl
  | cons a l ih =>
    by_cases h : p a
    · simp [List.filter_cons, List.find?_cons, h]
    · simp [List.filter_cons, List.find?_cons, h, ih]

/-- C7: when a course's topics are listed in strictly ascending `order`,
`select_topic_for_course` returns the first topic not in the completed set;
when every topic is completed it returns the last topic; and it returns
`none` exactly when the course has no topics at all. -/
theorem select_topic_for_course_spec (course : Course) (completed : List Int)
    (hsort : course.topics.Pairwise fun a b => a.order < b.order) :
    (select_topic_for_course course completed =
      match course.topics.find? (fun t => decide (t.id ∉ completed)) with
      | some t => some t
      | none => course.topics.getLast?) ∧
    (select_topic_for_course course completed = none ↔ course.topics = []) := by
  have havail : (course.topics.filter fun t => decide (t.id ∉ completed)).Sorted
      fun a b : Topic => a.order ≤ b.order :=
    ((hsort.sublist (List.filter_sublist course.topics)).imp fun h => le_of_lt h)
  have hmain : select_topic_for_course course completed =
      match course.topics.find? (fun t => decide (t.id ∉ completed)) with
      | some t => some t
      | none => course.topics.getLast? := by
    unfold select_topic_for_course
    rw [← head_of_filter]
    by_cases he : (course.topics.filter fun t => decide (t.id ∉ completed)).isEmpty
    · rw [if_pos he]
      rw [List.isEmpty_iff] at he
      rw [he]
      rfl
    · rw [if_neg he, List.Sorted.insertionSort_eq havail]
      rw [List.isEmpty_iff] at he
      rcases List.exists_cons_of_ne_nil he with ⟨a, l, hl⟩
      rw [hl]
      rfl
  refine ⟨hmain, ?_⟩
  rw [hmain]
  constructor
  · intro hnone
    rcases hfind : course.topics.find? (fun t => decide (t.id ∉ completed)) with _ | t
    · rw [hfind] at hnone
      simp only at hnone
      exact List.getLast?_eq_none_iff.mp hnone
    · rw [hfind] at hnone
      simp at hnone
  · intro hnil
    rw [hnil]
    rfl

/-- Closed instance of `select_topic_for_course_spec`: with topics ordered
`[1, 2, 3]`, completed `\x7b1, 2\x7d` yields topic 3, and completed
`\x7b1, 2, 3\x7d` also yields topic 3 (fallback to the last topic). -/
theorem select_topic_for_course_spec_witness :
    select_topic_for_course ⟨7, "maths", "core", [⟨1, "a", 1⟩, ⟨2, "b", 2⟩, ⟨3, "c", 3⟩]⟩ [1, 2] =
      some ⟨3, "c", 3⟩ ∧
    select_topic_for_course ⟨7, "maths", "core", [⟨1, "a", 1⟩, ⟨2, "b", 2⟩, ⟨3, "c", 3⟩]⟩ [1, 2, 3] =
      some ⟨3, "c", 3⟩ ∧
    select_topic_for_course ⟨7, "maths", "core", []⟩ [] = none := by
  refine ⟨?_, ?_, ?_⟩
  · rw [(select_topic_for_course_spec ⟨7, "maths", "core", [⟨1, "a", 1⟩, ⟨2, "b", 2⟩, ⟨3, "c", 3⟩]⟩
      [1, 2] (by decide)).1]
    rfl
  · rw [(select_topic_for_course_spec ⟨7, "maths", "core", [⟨1, "a", 1⟩, ⟨2, "b", 2⟩, ⟨3, "c", 3⟩]⟩
      [1, 2, 3] (by decide)).1]
    rfl
  · exact (select_topic_for_course_spec ⟨7, "maths", "core", []⟩ [] (by decide)).2.mpr rfl

/-! ## Theorems: day allocator

The de-duplication pass only swaps pairs of weekday assignments, so it
preserves both "every weekday holds a course of `S`" and "course `c` appears
on some weekday".  The per-strategy allocation phase is analysed afterwards. -/

theorem swapAlloc_covers {alloc : DayOfWeek → Option Course} {S : List Course}
    (h : ∀ d, ∃ c, alloc d = some c ∧ c ∈ S) (d1 d2 : DayOfWeek) :
    ∀ d, ∃ c, swapAlloc alloc d1 d2 d = some c ∧ c ∈ S := by
  intro d
  unfold swapAlloc
  split_ifs
  · exact h d2
  · exact h d1
  · exact h d

theorem swapAlloc_appears {alloc : DayOfWeek → Option Course} {c : Course}
    (h : ∃ d, alloc d = some c) (d1 d2 : DayOfWeek) :
    ∃ d, swapAlloc alloc d1 d2 d = some c := by
  obtain ⟨d0, hd0⟩ := h
  unfold swapAlloc
  by_cases e1 : d0 = d1
  · subst e1
    refine ⟨d2, ?_⟩
    by_cases e2 : d2 = d0
    · subst e2
      simp [hd0]
    · simp [e2, hd0]
  · by_cases e2 : d0 = d2
    · subst e2
      exact ⟨d1, by simp [hd0]⟩
    · exact ⟨d0, by simp [e1, e2, hd0]⟩

/-- Each step of the de-duplication pass either leaves the allocation alone or
swaps the assignments of two weekdays. -/
theorem dedupStep_eq_or_swap (alloc : DayOfWeek → Option Course) (i : Nat) :
    dedupStep alloc i = alloc ∨ ∃ d1 d2, dedupStep alloc i = swapAlloc alloc d1 d2 := by
  unfold dedupStep
  repeat' split
  all_goals first
    | (right; exact ⟨_, _, rfl⟩)
    | (left; rfl)

theorem dedupPass_covers {S : List Course} {alloc : DayOfWeek → Option Course}
    (h : ∀ d, ∃ c, alloc d = some c ∧ c ∈ S) :
    ∀ d, ∃ c, dedupPass alloc d = some c ∧ c ∈ S := by
  unfold dedupPass
  generalize List.range' 1 4 = l
  induction l generalizing alloc with
  | nil => exact h
  | cons i l ih =>
    rw [List.foldl_cons]
    apply ih
    rcases dedupStep_eq_or_swap alloc i with he | ⟨d1, d2, he⟩
    · rw [he]
      exact h
    · rw [he]
      exact swapAlloc_covers h d1 d2

theorem dedupPass_appears {alloc : DayOfWeek → Option Course} {c : Course}
    (h : ∃ d, alloc d = some c) :
    ∃ d, dedupPass alloc d = some c := by
  unfold dedupPass
  generalize List.range' 1 4 = l
  induction l generalizing alloc with
  | nil => exact h
  | cons i l ih =>
    rw [List.foldl_cons]
    apply ih
    rcases dedupStep_eq_or_swap alloc i with he | ⟨d1, d2, he⟩
    · rw [he]
      exact h
    · rw [he]
      exact swapAlloc_appears h d1 d2

theorem sortedSubjects_perm (core_courses elective_courses : List Course)
    (strength_ratings : Int → Option Int) :
    List.Perm (sortedSubjects core_courses elective_courses strength_ratings)
      (core_courses ++ elective_courses) :=
  List.perm_insertionSort _ _

/-- In the rotate/priority_rotate branch every weekday receives a course of
the input (the subject list is a nonempty permutation of the input). -/
theorem rotateAlloc_covers {sorted S : List Course} (hperm : List.Perm sorted S)
    (hne : sorted ≠ []) :
    ∀ d, ∃ c, rotateAlloc sorted d = some c ∧ c ∈ S := by
  intro d
  have hlt : dayIdx d % sorted.length < sorted.length :=
    Nat.mod_lt _ (List.length_pos.mpr hne)
  exact ⟨sorted.get ⟨_, hlt⟩, List.get?_eq_get hlt,
    hperm.mem_iff.mp (sorted.get_mem _ _)⟩

/-- With exactly five subjects the rotate branch assigns each subject to
exactly one weekday, so every subject appears. -/
theorem rotateAlloc_appears_of_five {sorted S : List Course} (hperm : List.Perm sorted S)
    (hlen : sorted.length = 5) :
    ∀ c ∈ S, ∃ d, rotateAlloc sorted d = some c := by
  intro c hc
  obtain ⟨⟨k, hk⟩, hget⟩ := List.mem_iff_get.mp (hperm.mem_iff.mpr hc)
  have hk5 : k < 5 := by omega
  obtain ⟨d, hd⟩ : ∃ d, dayIdx d = k := by
    interval_cases k
    exacts [⟨.monday, rfl⟩, ⟨.tuesday, rfl⟩, ⟨.wednesday, rfl⟩,
      ⟨.thursday, rfl⟩, ⟨.friday, rfl⟩]
  refine ⟨d, ?_⟩
  unfold rotateAlloc
  rw [hd, hlen, Nat.mod_eq_of_lt hk5, List.get?_eq_get (by omega)]
  exact congrArg some hget

theorem length_eq_four {α : Type} {l : List α} (h : l.length = 4) :
    ∃ a b c d, l = [a, b, c, d] := by
  obtain ⟨a, t, rfl⟩ := List.exists_of_length_succ l h
  rw [List.length_cons] at h
  obtain ⟨b, c, d, rfl⟩ := List.length_eq_three.mp (show t.length = 3 by omega)
  exact ⟨a, b, c, d, rfl⟩

/-- C1: for any input of 1–8 courses (core plus elective) with pairwise
distinct ids and any strength mapping, `allocate_subjects_to_days` assigns
every one of the 5 weekdays to one of the input courses, and when the total
course count is at most 5, every input course appears on at least one
weekday; for zero input courses it returns the empty mapping. -/
theorem allocate_subjects_to_days_spec
    (core_courses elective_courses : List Course)
    (strength_ratings : Int → Option Int)
    (hnodup : ((core_courses ++ elective_courses).map Course.id).Nodup) :
    ((core_courses ++ elective_courses).length = 0 →
      ∀ d, allocate_subjects_to_days core_courses elective_courses strength_ratings d
        = none) ∧
    (1 ≤ (core_courses ++ elective_courses).length →
      (core_courses ++ elective_courses).length ≤ 8 →
      (∀ d, ∃ c,
        allocate_subjects_to_days core_courses elective_courses strength_ratings d
          = some c ∧ c ∈ core_courses ++ elective_courses) ∧
      ((core_courses ++ elective_courses).length ≤ 5 →
        ∀ c ∈ core_courses ++ elective_courses, ∃ d,
          allocate_subjects_to_days core_courses elective_courses strength_ratings d
            = some c)) := by
  constructor
  · intro h0 d
    unfold allocate_subjects_to_days
    rw [if_pos h0]
  · intro h1 h8
    have hperm := sortedSubjects_perm core_courses elective_courses strength_ratings
    have hslen : (sortedSubjects core_courses elective_courses strength_ratings).length
        = (core_courses ++ elective_courses).length := hperm.length_eq
    have hnd : ((sortedSubjects core_courses elective_courses strength_ratings).map
        Course.id).Nodup := (hperm.map Course.id).nodup_iff.mpr hnodup
    obtain ⟨n, hn⟩ : ∃ n, (core_courses ++ elective_courses).length = n := ⟨_, rfl⟩
    rw [hn] at h1 h8 hslen
    interval_cases n
    · -- one subject
      obtain ⟨a, hs⟩ := List.length_eq_one.mp hslen
      rw [hs] at hperm
      have hfa : freqAlloc ⟨"frequent", 2, 3⟩
          (sortedSubjects core_courses elective_courses strength_ratings) =
          fun d => [a, a, a, a, a].get? (dayIdx d) := by
        rw [hs]
        norm_num [freqAlloc, minPass, distributeExtra, dictSet, padTo5,
          List.foldl, Int.toNat_ofNat, List.replicate]
      have halloc : allocate_subjects_to_days core_courses elective_courses
          strength_ratings = dedupPass (fun d => [a, a, a, a, a].get? (dayIdx d)) := by
        unfold allocate_subjects_to_days
        simp [hn, get_weekly_frequency, hfa]
      refine ⟨?_, fun _ c hc => ?_⟩
      · simp only [halloc]
        apply dedupPass_covers
        intro d
        cases d <;> exact ⟨a, rfl, hperm.mem_iff.mp (by simp)⟩
      · have hc' : c ∈ [a] := hperm.mem_iff.mpr hc
        simp only [List.mem_singleton] at hc'
        subst hc'
        simp only [halloc]
        exact dedupPass_appears ⟨.monday, rfl⟩
    · -- two subjects
      obtain ⟨a, b, hs⟩ := List.length_eq_two.mp hslen
      rw [hs] at hperm
      rw [hs] at hnd
      simp only [List.map_cons, List.map_nil, List.nodup_cons, List.mem_cons,
        List.not_mem_nil, List.mem_singleton, or_false, List.nodup_nil,
        not_false_eq_true, and_true] at hnd
      have hab : a.id ≠ b.id := hnd
      have hfa : freqAlloc ⟨"frequent", 2, 3⟩
          (sortedSubjects core_courses elective_courses strength_ratings) =
          fun d => [a, a, a, b, b].get? (dayIdx d) := by
        rw [hs]
        norm_num [freqAlloc, minPass, distributeExtra, dictSet, hab, Ne.symm hab,
          padTo5, List.foldl, Int.toNat_ofNat, List.replicate]
      have halloc : allocate_subjects_to_days core_courses elective_courses
          strength_ratings = dedupPass (fun d => [a, a, a, b, b].get? (dayIdx d)) := by
        unfold allocate_subjects_to_days
        simp [hn, get_weekly_frequency, hfa]
      refine ⟨?_, fun _ c hc => ?_⟩
      · simp only [halloc]
        apply dedupPass_covers
        intro d
        cases d
        · exact ⟨a, rfl, hperm.mem_iff.mp (by simp)⟩
        · exact ⟨a, rfl, hperm.mem_iff.mp (by simp)⟩
        · exact ⟨a, rfl, hperm.mem_iff.mp (by simp)⟩
        · exact ⟨b, rfl, hperm.mem_iff.mp (by simp)⟩
        · exact ⟨b, rfl, hperm.mem_iff.mp (by simp)⟩
      · have hc' : c ∈ [a, b] := hperm.mem_iff.mpr hc
        simp only [List.mem_cons, List.mem_singleton, List.not_mem_nil,
          or_false] at hc'
        simp only [halloc]
        rcases hc' with rfl | rfl
        · exact dedupPass_appears ⟨.monday, rfl⟩
        · exact dedupPass_appears ⟨.thursday, rfl⟩
    · -- three subjects
      obtain ⟨a, b, c, hs⟩ := List.length_eq_three.mp hslen
      rw [hs] at hperm
      rw [hs] at hnd
      simp only [List.map_cons, List.map_nil, List.nodup_cons, List.mem_cons,
        List.not_mem_nil, List.mem_singleton, or_false, not_or, List.nodup_nil,
        not_false_eq_true, and_true] at hnd
      obtain ⟨⟨hab, hac⟩, hbc⟩ := hnd
      have hfa : freqAlloc ⟨"balanced", 1, 2⟩
          (sortedSubjects core_courses elective_courses strength_ratings) =
          fun d => [a, a, b, b, c].get? (dayIdx d) := by
        rw [hs]
        norm_num [freqAlloc, minPass, distributeExtra, dictSet, hab, Ne.symm hab,
          hac, Ne.symm hac, hbc, Ne.symm hbc, padTo5, List.foldl, Int.toNat_ofNat,
          List.replicate]
      have halloc : allocate_subjects_to_days core_courses elective_courses
          strength_ratings = dedupPass (fun d => [a, a, b, b, c].get? (dayIdx d)) := by
        unfold allocate_subjects_to_days
        simp [hn, get_weekly_frequency, hfa]
      refine ⟨?_, fun _ x hx => ?_⟩
      · simp only [halloc]
        apply dedupPass_covers
        intro d
        cases d
        · exact ⟨a, rfl, hperm.mem_iff.mp (by simp)⟩
        · exact ⟨a, rfl, hperm.mem_iff.mp (by simp)⟩
        · exact ⟨b, rfl, hperm.mem_iff.mp (by simp)⟩
        · exact ⟨b, rfl, hperm.mem_iff.mp (by simp)⟩
        · exact ⟨c, rfl, hperm.mem_iff.mp (by simp)⟩
      · have hx' : x ∈ [a, b, c] := hperm.mem_iff.mpr hx
        simp only [List.mem_cons, List.mem_singleton, List.not_mem_nil,
          or_false] at hx'
        simp only [halloc]
        rcases hx' with rfl | rfl | rfl
        · exact dedupPass_appears ⟨.monday, rfl⟩
        · exact dedupPass_appears ⟨.wednesday, rfl⟩
        · exact dedupPass_appears ⟨.friday, rfl⟩
    · -- four subjects
      obtain ⟨a, b, c, d, hs⟩ := length_eq_four hslen
      rw [hs] at hperm
      rw [hs] at hnd
      simp only [List.map_cons, List.map_nil, List.nodup_cons, List.mem_cons,
        List.not_mem_nil, List.mem_singleton, or_false, not_or, List.nodup_nil,
        not_false_eq_true, and_true] at hnd
      obtain ⟨⟨hab, hac, had⟩, ⟨hbc, hbd⟩, hcd⟩ := hnd
      have hfa : freqAlloc ⟨"balanced", 1, 2⟩
          (sortedSubjects core_courses elective_courses strength_ratings) =
          fun e => [a, a, b, c, d].get? (dayIdx e) := by
        rw [hs]
        norm_num [freqAlloc, minPass, distributeExtra, dictSet, hab, Ne.symm hab,
          hac, Ne.symm hac, had, Ne.symm had, hbc, Ne.symm hbc, hbd, Ne.symm hbd,
          hcd, Ne.symm hcd, padTo5, List.foldl, Int.toNat_ofNat, List.replicate]
      have halloc : allocate_subjects_to_days core_courses elective_courses
          strength_ratings = dedupPass (fun e => [a, a, b, c, d].get? (dayIdx e)) := by
        unfold allocate_subjects_to_days
        simp [hn, get_weekly_frequency, hfa]
      refine ⟨?_, fun _ x hx => ?_⟩
      · simp only [halloc]
        apply dedupPass_covers
        intro e
        cases e
        · exact ⟨a, rfl, hperm.mem_iff.mp (by simp)⟩
        · exact ⟨a, rfl, hperm.mem_iff.mp (by simp)⟩
        · exact ⟨b, rfl, hperm.mem_iff.mp (by simp)⟩
        · exact ⟨c, rfl, hperm.mem_iff.mp (by simp)⟩
        · exact ⟨d, rfl, hperm.mem_iff.mp (by simp)⟩
      · have hx' : x ∈ [a, b, c, d] := hperm.mem_iff.mpr hx
        simp only [List.mem_cons, List.mem_singleton, List.not_mem_nil,
          or_false] at hx'
        simp only [halloc]
        rcases hx' with rfl | rfl | rfl | rfl
        · exact dedupPass_appears ⟨.monday, rfl⟩
        · exact dedupPass_appears ⟨.wednesday, rfl⟩
        · exact dedupPass_appears ⟨.thursday, rfl⟩
        · exact dedupPass_appears ⟨.friday, rfl⟩
    · -- five subjects: rotate branch, one pass over all subjects
      have halloc : allocate_subjects_to_days core_courses elective_courses
          strength_ratings = dedupPass
            (rotateAlloc (sortedSubjects core_courses elective_courses strength_ratings)) := by
        unfold allocate_subjects_to_days
        simp [hn, get_weekly_frequency]
      refine ⟨?_, fun _ x hx => ?_⟩
      · simp only [halloc]
        exact dedupPass_covers (rotateAlloc_covers hperm
          (by intro h; rw [h] at hslen; simp at hslen))
      · simp only [halloc]
        exact dedupPass_appears (rotateAlloc_appears_of_five hperm hslen x hx)
    · -- six subjects
      have halloc : allocate_subjects_to_days core_courses elective_courses
          strength_ratings = dedupPass
            (rotateAlloc (sortedSubjects core_courses elective_courses strength_ratings)) := by
        unfold allocate_subjects_to_days
        simp [hn, get_weekly_frequency]
      refine ⟨?_, fun h5 => absurd h5 (by omega)⟩
      simp only [halloc]
      exact dedupPass_covers (rotateAlloc_covers hperm
        (by intro h; rw [h] at hslen; simp at hslen))
    · -- seven subjects
      have halloc : allocate_subjects_to_days core_courses elective_courses
          strength_ratings = dedupPass
            (rotateAlloc (sortedSubjects core_courses elective_courses strength_ratings)) := by
        unfold allocate_subjects_to_days
        simp [hn, get_weekly_frequency]
      refine ⟨?_, fun h5 => absurd h5 (by omega)⟩
      simp only [halloc]
      exact dedupPass_covers (rotateAlloc_covers hperm
        (by intro h; rw [h] at hslen; simp at hslen))
    · -- eight subjects
      have halloc : allocate_subjects_to_days core_courses elective_courses
          strength_ratings = dedupPass
            (rotateAlloc (sortedSubjects core_courses elective_courses strength_ratings)) := by
        unfold allocate_subjects_to_days
        simp [hn, get_weekly_frequency]
      refine ⟨?_, fun h5 => absurd h5 (by omega)⟩
      simp only [halloc]
      exact dedupPass_covers (rotateAlloc_covers hperm
        (by intro h; rw [h] at hslen; simp at hslen))

/-- Closed instance of `allocate_subjects_to_days_spec`: with one core and one
elective course, Monday is assigned one of the two input courses, and the
elective course appears on some weekday. -/
theorem allocate_subjects_to_days_spec_witness :
    (∃ c, allocate_subjects_to_days [⟨1, "m", "core", []⟩] [⟨2, "p", "elective", []⟩] (fun _ => none)
        .monday = some c ∧ c ∈ [⟨1, "m", "core", []⟩] ++ [⟨2, "p", "elective", []⟩]) ∧
    (∃ d, allocate_subjects_to_days [⟨1, "m", "core", []⟩] [⟨2, "p", "elective", []⟩] (fun _ => none) d
        = some ⟨2, "p", "elective", []⟩) := by
  have h := (allocate_subjects_to_days_spec [⟨1, "m", "core", []⟩] [⟨2, "p", "elective", []⟩]
    (fun _ => none) (by decide)).2 (by decide) (by decide)
  exact ⟨h.1 .monday, h.2 (by decide) ⟨2, "p", "elective", []⟩ (by decide)⟩

/-! ## Persistence and cache state

The relational rows of `model/study_plans.py` and the Redis cache of
`service/redis.py`.  Dates are modelled as epoch-day integers; UUIDs as
strings. -/

/-- A `study_plans` row. -/
structure StudyPlanRec where
  id : Int
  user_id : String
  week_start_date : Int
deriving DecidableEq, Repr

/-- A `daily_study_sessions` row. -/
structure DailySessionRec where
  id : Int
  study_plan_id : Int
  day_of_week : DayOfWeek
  course_id : Int
  topic_id : Int
  tasks : List Task
deriving DecidableEq, Repr

/-- A `subject_strengths` row. -/
structure SubjectStrengthRec where
  id : Int
  user_id : String
  course_id : Int
  strength : Int
deriving DecidableEq, Repr

/-- The relational store.  `nextId` is the next primary key the database
assigns on insert. -/
structure DB where
  plans : List StudyPlanRec
  daily_sessions : List DailySessionRec
  strengths : List SubjectStrengthRec
  courses : List Course
  nextId : Int
deriving DecidableEq, Repr

/-- `Course.get_core_course_names`: names of the courses typed `core`. -/
def get_core_course_names (db : DB) : List String :=
  (db.courses.filter fun c => c.type == "core").map Course.name

/-- `schema/study_plans.py` `DailyStudySessionOut`. -/
structure DailyStudySessionOut where
  id : Int
  day_of_week : DayOfWeek
  course_id : Int
  course_name : String
  topic_id : Int
  topic_subject : String
  tasks : List Task
deriving DecidableEq, Repr

/-- `schema/study_plans.py` `StudyPlanOut`. -/
structure StudyPlanOut where
  id : Int
  user_id : String
  week_start_date : Int
  daily_sessions : List DailyStudySessionOut
deriving DecidableEq, Repr

/-- `schema/study_plans.py` `StudyPlanGenerateIn`; a strength rating is a
`(course_id, strength)` pair. -/
structure StudyPlanGenerateIn where
  selected_subjects : List Int
  daily_study_time : Int
  strength_ratings : List (Int × Int)
  completed_topics : List Int
deriving DecidableEq, Repr

/-- An error surfaced to the HTTP layer: either an `HTTPException(code, detail)`
or an uncaught Python exception (`crash`). -/
inductive Err where
  | http (code : Int) (detail : String)
  | crash
deriving DecidableEq, Repr

/-- A value stored in the cache: the JSON shapes this system writes. -/
inductive CVal where
  | plan (p : StudyPlanOut)
  | plans (l : List StudyPlanOut)
  | names (l : List String)
deriving DecidableEq, Repr

/-- A cache entry with the TTL (seconds) it was written with. -/
structure CacheEntry where
  value : CVal
  expiry : Option Int
deriving DecidableEq, Repr

/-- The Redis store.  `broken = true` means every client call raises
`redis.RedisError` (connection refused, timeout, ...). -/
structure Cache where
  entries : List (String × CacheEntry)
  broken : Bool
deriving DecidableEq, Repr

/-- `Redis.get_json`: `handle_redis_error` swallows a `redis.RedisError`, so a
broken connection makes the method fall through and return `None` (a miss). -/
def redis_get_json (c : Cache) (key : String) : Option CVal :=
  if c.broken then none
  else
    match c.entries.find? fun e => e.1 == key with
    | some (_, e) => some e.value
    | none => none

/-- `Redis.set_json`: on a broken connection the error is swallowed and
nothing is written. -/
def redis_set_json (c : Cache) (key : String) (v : CVal) (expiry : Option Int) :
    Cache :=
  if c.broken then c
  else { c with entries := (key, ⟨v, expiry⟩) :: c.entries.filter fun e => !(e.1 == key) }

/-- `Redis.delete`: on a broken connection the error is swallowed and nothing
is deleted. -/
def redis_delete (c : Cache) (key : String) : Cache :=
  if c.broken then c
  else { c with entries := c.entries.filter fun e => !(e.1 == key) }

/-! ## Service layer over the state (`service/study_plans.py`) -/

/-- `Course.get_course_by_id` / the `session.course` relationship. -/
def DB.findCourse (db : DB) (cid : Int) : Option Course :=
  db.courses.find? fun c => c.id == cid

/-- The `session.topic` relationship. -/
def DB.findTopic (db : DB) (tid : Int) : Option Topic :=
  (db.courses.flatMap Course.topics).find? fun t => t.id == tid

/-- The `plan.daily_sessions` relationship /
`DailyStudySession.get_sessions_for_plan`. -/
def DB.sessionsOfPlan (db : DB) (pid : Int) : List DailySessionRec :=
  db.daily_sessions.filter fun s => s.study_plan_id == pid

/-- Building one `DailyStudySessionOut` (the session loops of
`service/study_plans.py` and `controller/study_plans.py`); a dangling
course/topic foreign key would crash the Python attribute access
(`session.course.name`) and is modelled as `none`. -/
def buildSessionOut (db : DB) (s : DailySessionRec) : Option DailyStudySessionOut := do
  let course ← db.findCourse s.course_id
  let topic ← db.findTopic s.topic_id
  pure ⟨s.id, s.day_of_week, s.course_id, course.name, s.topic_id, topic.subject, s.tasks⟩

/-- Building a full `StudyPlanOut` from a plan row. -/
def buildPlanOut (db : DB) (p : StudyPlanRec) : Option StudyPlanOut := do
  let sessions ← (db.sessionsOfPlan p.id).mapM (buildSessionOut db)
  pure ⟨p.id, p.user_id, p.week_start_date, sessions⟩

/-- `StudyPlan.get_current_week_plan`: first plan of the user for the given
week-start date. -/
def DB.currentWeekPlan (db : DB) (user_id : String) (week_start : Int) :
    Option StudyPlanRec :=
  db.plans.find? fun p => p.user_id == user_id && p.week_start_date == week_start

/-- `StudyPlanService.get_current_week_plan`: `ok none` when the user has no
plan this week, `ok (some out)` otherwise (`crash` on a dangling foreign
key). -/
def service_get_current_week_plan (db : DB) (week_start : Int) (user_id : String) :
    Except Err (Option StudyPlanOut) :=
  match db.currentWeekPlan user_id week_start with
  | none => .ok none
  | some plan =>
    match buildPlanOut db plan with
    | some out => .ok (some out)
    | none => .error .crash

/-- `StudyPlanService.swap_days`: exchange the `day_of_week` labels of the two
sessions of the user's current-week plan (each saved back by primary key);
`false` and an unchanged store when the plan or either session is missing. -/
def service_swap_days (db : DB) (week_start : Int) (user_id : String)
    (from_day to_day : DayOfWeek) : Bool × DB :=
  match db.currentWeekPlan user_id week_start with
  | none => (false, db)
  | some plan =>
    let sessions := db.sessionsOfPlan plan.id
    match sessions.find? fun s => s.day_of_week == from_day,
        sessions.find? fun s => s.day_of_week == to_day with
    | some from_session, some to_session =>
      (true, { db with daily_sessions := db.daily_sessions.map fun s =>
          if s.id = from_session.id then { s with day_of_week := to_session.day_of_week }
          else if s.id = to_session.id then { s with day_of_week := from_session.day_of_week }
          else s })
    | _, _ => (false, db)

/-- `StudyPlanService.categorize_subjects`: read the core-course names through
the cache (1-hour TTL on a miss), then split the courses into core and
electives preserving order.  The `core_course_names` key only ever holds a
list of names, and Python's truthiness check re-fetches on an empty cached
list. -/
def categorize_subjects (cache : Cache) (db : DB) (courses : List Course) :
    (List Course × List Course) × Cache :=
  let cache_key := "core_course_names"
  let fetched : List String × Cache :=
    (get_core_course_names db,
      redis_set_json cache cache_key (.names (get_core_course_names db)) (some 3600))
  let (core_course_names, cache') :=
    match redis_get_json cache cache_key with
    | some (.names l) => if l.isEmpty then fetched else (l, cache)
    | some _ => fetched
    | none => fetched
  ((courses.partition fun c => decide (c.name ∈ core_course_names)), cache')

/-- The body of the `for day, course in allocation.items()` loop of
`generate_study_plan`: pick the next topic (skip the weekday when the course
has none) and persist one session row with the generated task list. -/
def sessionStep (data : StudyPlanGenerateIn) (plan_id : Int) (acc : DB)
    (dc : DayOfWeek × Course) : Option DB :=
  match select_topic_for_course dc.2 data.completed_topics with
  | none => some acc
  | some topic =>
    match generate_tasks data.daily_study_time with
    | none => none
    | some tasks =>
      some { acc with
        daily_sessions := acc.daily_sessions ++
          [(⟨acc.nextId, plan_id, dc.1, dc.2.id, topic.id, tasks⟩ : DailySessionRec)],
        nextId := acc.nextId + 1 }

/-- `StudyPlanService.generate_study_plan`: bulk-load the selected courses,
categorize, allocate, then persist the plan row and one session row per
allocated weekday (skipping weekdays whose course has no topic).  The Python
dict iteration `allocation.items()` follows insertion order, which is the
Monday-to-Friday loop order of the allocator.  `none` models an uncaught
exception. -/
def service_generate_study_plan (cache : Cache) (db : DB) (user_id : String)
    (week_start : Int) (data : StudyPlanGenerateIn) :
    Option (StudyPlanRec × DB × Cache) :=
  let courses := db.courses.filter fun c => decide (c.id ∈ data.selected_subjects)
  let (categorized, cache') := categorize_subjects cache db courses
  let strength_dict : Int → Option Int := fun cid =>
    (data.strength_ratings.reverse.find? fun s => s.1 == cid).map Prod.snd
  let allocation :=
    allocate_subjects_to_days categorized.1 categorized.2 strength_dict
  let study_plan : StudyPlanRec := ⟨db.nextId, user_id, week_start⟩
  let db1 := { db with plans := db.plans ++ [study_plan], nextId := db.nextId + 1 }
  let items := days.filterMap fun d => (allocation d).map fun c => (d, c)
  (items.foldlM (sessionStep data study_plan.id) db1).map
    fun db2 => (study_plan, db2, cache')

/-- Reference definition for the cache-failure claim, following the spec's
"primary persistence-backed path": the generation computation with every cache
interaction removed (core-course names read straight from the store, nothing
written to the cache).  `service_generate_study_plan` on a failing cache is
proved equal to it. -/
def generate_study_plan_nocache (db : DB) (user_id : String) (week_start : Int)
    (data : StudyPlanGenerateIn) : Option (StudyPlanRec × DB) :=
  let courses := db.courses.filter fun c => decide (c.id ∈ data.selected_subjects)
  let categorized := courses.partition fun c => decide (c.name ∈ get_core_course_names db)
  let strength_dict : Int → Option Int := fun cid =>
    (data.strength_ratings.reverse.find? fun s => s.1 == cid).map Prod.snd
  let allocation :=
    allocate_subjects_to_days categorized.1 categorized.2 strength_dict
  let study_plan : StudyPlanRec := ⟨db.nextId, user_id, week_start⟩
  let db1 := { db with plans := db.plans ++ [study_plan], nextId := db.nextId + 1 }
  let items := days.filterMap fun d => (allocation d).map fun c => (d, c)
  (items.foldlM (sessionStep data study_plan.id) db1).map
    fun db2 => (study_plan, db2)

/-! ## Controller layer (`controller/study_plans.py`) -/

/-- `StudyPlanController.get_current_week_plan`: cache-aside read of the
current week's plan; a miss (or a cached value whose Pydantic reconstruction
raises, which the controller catches) falls back to the service and caches the
result for 1800 seconds (30 minutes). -/
def controller_get_current_week_plan (cache : Cache) (db : DB) (week_start : Int)
    (user_id : String) : Except Err (StudyPlanOut × Cache) :=
  let cache_key := "user_current_week_plan:" ++ user_id
  let fallback : Except Err (StudyPlanOut × Cache) :=
    match service_get_current_week_plan db week_start user_id with
    | .error e => .error e
    | .ok none => .error (.http 404 "No study plan for current week")
    | .ok (some result) =>
      .ok (result, redis_set_json cache cache_key (.plan result) (some 1800))
  match redis_get_json cache cache_key with
  | some (.plan p) => .ok (p, cache)
  | some _ => fallback
  | none => fallback

/-- `StudyPlanController.get_user_study_plans`: cache-aside read of all of the
user's plans; an empty cached list is falsy in Python and is treated as a
miss; the db result is cached for 1800 seconds. -/
def controller_get_user_study_plans (cache : Cache) (db : DB) (user_id : String) :
    Except Err (List StudyPlanOut × Cache) :=
  let cache_key := "user_study_plans:" ++ user_id
  let dbPath : Except Err (List StudyPlanOut × Cache) :=
    match (db.plans.filter fun p => p.user_id == user_id).mapM (buildPlanOut db) with
    | none => .error .crash
    | some result =>
      .ok (result, redis_set_json cache cache_key (.plans result) (some 1800))
  match redis_get_json cache cache_key with
  | some (.plans l) => if l.isEmpty then dbPath else .ok (l, cache)
  | some _ => dbPath
  | none => dbPath

/-- `StudyPlanController.get_study_plan_by_id`: ownership-checked direct read;
no cache interaction at all in the source. -/
def controller_get_study_plan_by_id (cache : Cache) (db : DB) (user_id : String)
    (plan_id : Int) : Except Err (StudyPlanOut × Cache) :=
  match db.plans.find? fun p => p.id == plan_id with
  | none => .error (.http 404 "Study plan not found")
  | some plan =>
    if plan.user_id ≠ user_id then .error (.http 404 "Study plan not found")
    else
      match buildPlanOut db plan with
      | none => .error .crash
      | some out => .ok (out, cache)

/-- `StudyPlanController.get_study_plan_by_week`: parse the ISO week date
(`none` models an unparseable string, rejected with a 400), then a direct
persistence read; no cache interaction at all in the source. -/
def controller_get_study_plan_by_week (cache : Cache) (db : DB) (user_id : String)
    (week_date : Option Int) : Except Err (StudyPlanOut × Cache) :=
  match week_date with
  | none => .error (.http 400 "Invalid date format. Use YYYY-MM-DD")
  | some week_start =>
    match db.currentWeekPlan user_id week_start with
    | none => .error (.http 404 "No study plan found for specified week")
    | some plan =>
      match buildPlanOut db plan with
      | none => .error .crash
      | some out => .ok (out, cache)

/-- `StudyPlanController.swap_days`: run the service swap, 400 on failure,
invalidate both cache keys on success. -/
def controller_swap_days (cache : Cache) (db : DB) (week_start : Int)
    (user_id : String) (from_day to_day : DayOfWeek) :
    Except Err (String × DB × Cache) :=
  let r := service_swap_days db week_start user_id from_day to_day
  if r.1 then
    let cache1 := redis_delete cache ("user_current_week_plan:" ++ user_id)
    let cache2 := redis_delete cache1 ("user_study_plans:" ++ user_id)
    .ok ("Days swapped successfully", r.2, cache2)
  else .error (.http 400 "Swap failed")

/-- `StudyPlanController.update_strength`: upsert of the strength row for
`(user_id, course_id)` — update in place (saved by primary key) when a row
exists, insert otherwise. -/
def controller_update_strength (db : DB) (user_id : String) (course_id : Int)
    (strength : Int) : DB :=
  match db.strengths.find? fun r => r.user_id == user_id && r.course_id == course_id with
  | some existing =>
    { db with strengths := db.strengths.map fun r =>
        if r.id = existing.id then { r with strength := strength } else r }
  | none =>
    { db with
      strengths := db.strengths ++ [⟨db.nextId, user_id, course_id, strength⟩],
      nextId := db.nextId + 1 }

/-- `StudyPlanController.delete_study_plan`: ownership-checked hard delete
(the ORM cascade also deletes the plan's sessions), then cache
invalidation. -/
def controller_delete_study_plan (cache : Cache) (db : DB) (user_id : String)
    (plan_id : Int) : Except Err (String × DB × Cache) :=
  match db.plans.find? fun p => p.id == plan_id with
  | none => .error (.http 404 "Study plan not found")
  | some plan =>
    if plan.user_id ≠ user_id then .error (.http 404 "Study plan not found")
    else
      let db' := { db with
        plans := db.plans.filter fun p => !(p.id == plan_id),
        daily_sessions := db.daily_sessions.filter fun s => !(s.study_plan_id == plan_id) }
      let cache1 := redis_delete cache ("user_current_week_plan:" ++ user_id)
      let cache2 := redis_delete cache1 ("user_study_plans:" ++ user_id)
      .ok ("Study plan deleted successfully", db', cache2)

/-- `StudyPlanController.generate_study_plan`: any service exception is caught
and surfaced as a 400; on success both cached plan views of the user are
invalidated and the new plan id is returned. -/
def controller_generate_study_plan (cache : Cache) (db : DB) (user_id : String)
    (week_start : Int) (data : StudyPlanGenerateIn) :
    Except Err (Int × DB × Cache) :=
  match service_generate_study_plan cache db user_id week_start data with
  | none => .error (.http 400 "Study plan generation failed")
  | some (plan, db', cache') =>
    let cache1 := redis_delete cache' ("user_current_week_plan:" ++ user_id)
    let cache2 := redis_delete cache1 ("user_study_plans:" ++ user_id)
    .ok (plan.id, db', cache2)

/-! ## Theorems: swap and strength update -/

/-- C6: `swap_days` returns a failure signal and leaves every session
unchanged whenever the current-week plan is missing or either weekday has no
session in it; when both sessions exist it exchanges exactly their
`day_of_week` labels (all other sessions and fields untouched) and signals
success. -/
theorem swap_days_spec (db : DB) (week_start : Int) (user_id : String)
    (from_day to_day : DayOfWeek) :
    (db.currentWeekPlan user_id week_start = none →
      service_swap_days db week_start user_id from_day to_day = (false, db)) ∧
    (∀ plan, db.currentWeekPlan user_id week_start = some plan →
      (((db.sessionsOfPlan plan.id).find? (fun s => s.day_of_week == from_day) = none ∨
        (db.sessionsOfPlan plan.id).find? (fun s => s.day_of_week == to_day) = none) →
        service_swap_days db week_start user_id from_day to_day = (false, db)) ∧
      (∀ fs ts,
        (db.sessionsOfPlan plan.id).find? (fun s => s.day_of_week == from_day) = some fs →
        (db.sessionsOfPlan plan.id).find? (fun s => s.day_of_week == to_day) = some ts →
        service_swap_days db week_start user_id from_day to_day =
          (true, { db with daily_sessions := db.daily_sessions.map fun s =>
              if s.id = fs.id then { s with day_of_week := ts.day_of_week }
              else if s.id = ts.id then { s with day_of_week := fs.day_of_week }
              else s }) ∧
        (∀ s ∈ db.daily_sessions, s.id ≠ fs.id → s.id ≠ ts.id →
          s ∈ (service_swap_days db week_start user_id from_day to_day).2.daily_sessions))) := by
  constructor
  · intro h
    unfold service_swap_days
    rw [h]
  · intro plan hplan
    constructor
    · intro hor
      unfold service_swap_days
      rw [hplan]
      dsimp only
      rcases hf : (db.sessionsOfPlan plan.id).find? (fun s => s.day_of_week == from_day)
        with _ | fs
      · rw [hf]
      · rcases ht : (db.sessionsOfPlan plan.id).find? (fun s => s.day_of_week == to_day)
          with _ | ts
        · rw [hf, ht]
        · rcases hor with h | h
          · rw [hf] at h
            cases h
          · rw [ht] at h
            cases h
    · intro fs ts hf ht
      have heq : service_swap_days db week_start user_id from_day to_day =
          (true, { db with daily_sessions := db.daily_sessions.map fun s =>
            if s.id = fs.id then { s with day_of_week := ts.day_of_week }
            else if s.id = ts.id then { s with day_of_week := fs.day_of_week }
            else s }) := by
        unfold service_swap_days
        rw [hplan]
        dsimp only
        rw [hf, ht]
      refine ⟨heq, ?_⟩
      intro s hs h1 h2
      rw [heq]
      refine List.mem_map.mpr ⟨s, hs, ?_⟩
      rw [if_neg h1, if_neg h2]

/-- Closed instance of `swap_days_spec`: swapping Monday with a missing
Wednesday is a no-op failure; swapping Monday with Tuesday exchanges exactly
the two day labels. -/
theorem swap_days_spec_witness :
    service_swap_days
      ⟨[⟨1, "u", 0⟩], [⟨10, 1, .monday, 100, 1000, []⟩, ⟨11, 1, .tuesday, 200, 2000, []⟩],
        [], [], 12⟩ 0 "u" .monday .wednesday =
      (false, ⟨[⟨1, "u", 0⟩],
        [⟨10, 1, .monday, 100, 1000, []⟩, ⟨11, 1, .tuesday, 200, 2000, []⟩], [], [], 12⟩) ∧
    service_swap_days
      ⟨[⟨1, "u", 0⟩], [⟨10, 1, .monday, 100, 1000, []⟩, ⟨11, 1, .tuesday, 200, 2000, []⟩],
        [], [], 12⟩ 0 "u" .monday .tuesday =
      (true, ⟨[⟨1, "u", 0⟩],
        [⟨10, 1, .tuesday, 100, 1000, []⟩, ⟨11, 1, .monday, 200, 2000, []⟩], [], [], 12⟩) := by
  constructor
  · exact ((swap_days_spec
      ⟨[⟨1, "u", 0⟩], [⟨10, 1, .monday, 100, 1000, []⟩, ⟨11, 1, .tuesday, 200, 2000, []⟩],
        [], [], 12⟩ 0 "u" .monday .wednesday).2 ⟨1, "u", 0⟩ (by decide)).1
      (Or.inr (by decide))
  · have h := (((swap_days_spec
      ⟨[⟨1, "u", 0⟩], [⟨10, 1, .monday, 100, 1000, []⟩, ⟨11, 1, .tuesday, 200, 2000, []⟩],
        [], [], 12⟩ 0 "u" .monday .tuesday).2 ⟨1, "u", 0⟩ (by decide)).2
      ⟨10, 1, .monday, 100, 1000, []⟩ ⟨11, 1, .tuesday, 200, 2000, []⟩
      (by decide) (by decide)).1
    rw [h]
    decide

/-- C9: `update_strength` upserts only the strength row of the
`(user, course)` pair: plans, sessions and courses are untouched, every other
strength row is preserved, and afterwards a row with the given strength exists
for the pair.  `hids` is the primary-key uniqueness invariant of the
`subject_strengths` table. -/
theorem update_strength_frame (db : DB) (user_id : String) (course_id strength : Int)
    (hids : (db.strengths.map SubjectStrengthRec.id).Nodup) :
    (controller_update_strength db user_id course_id strength).plans = db.plans ∧
    (controller_update_strength db user_id course_id strength).daily_sessions =
      db.daily_sessions ∧
    (controller_update_strength db user_id course_id strength).courses = db.courses ∧
    (∀ r ∈ db.strengths, ¬(r.user_id = user_id ∧ r.course_id = course_id) →
      r ∈ (controller_update_strength db user_id course_id strength).strengths) ∧
    (∃ r ∈ (controller_update_strength db user_id course_id strength).strengths,
      r.user_id = user_id ∧ r.course_id = course_id ∧ r.strength = strength) := by
  unfold controller_update_strength
  rcases hfind : db.strengths.find?
      (fun r => r.user_id == user_id && r.course_id == course_id) with _ | ex
  · rw [hfind]
    refine ⟨rfl, rfl, rfl, ?_, ?_⟩
    · intro r hr _
      exact List.mem_append_left _ hr
    · exact ⟨⟨db.nextId, user_id, course_id, strength⟩,
        List.mem_append_right _ (by simp), rfl, rfl, rfl⟩
  · have hex_mem : ex ∈ db.strengths := List.mem_of_find?_eq_some hfind
    have hex_pred := List.find?_some hfind
    rw [Bool.and_eq_true, beq_iff_eq, beq_iff_eq] at hex_pred
    rw [hfind]
    refine ⟨rfl, rfl, rfl, ?_, ?_⟩
    · intro r hr hne
      have hrid : r.id ≠ ex.id := by
        intro h
        have hre : r = ex := List.inj_on_of_nodup_map hids hr hex_mem h
        exact hne ⟨by rw [hre, hex_pred.1], by rw [hre, hex_pred.2]⟩
      refine List.mem_map.mpr ⟨r, hr, ?_⟩
      rw [if_neg hrid]
    · exact ⟨{ ex with strength := strength },
        List.mem_map.mpr ⟨ex, hex_mem, by rw [if_pos rfl]⟩, hex_pred.1, hex_pred.2, rfl⟩

/-- Closed instance of `update_strength_frame`: updating the strength of
course 100 for user `u` keeps plans and sessions intact and records the new
strength. -/
theorem update_strength_frame_witness :
    (controller_update_strength
      ⟨[⟨1, "u", 0⟩], [⟨10, 1, .monday, 100, 1000, []⟩], [⟨2, "u", 100, 2⟩], [], 12⟩
      "u" 100 5).plans = [⟨1, "u", 0⟩] ∧
    (controller_update_strength
      ⟨[⟨1, "u", 0⟩], [⟨10, 1, .monday, 100, 1000, []⟩], [⟨2, "u", 100, 2⟩], [], 12⟩
      "u" 100 5).daily_sessions = [⟨10, 1, .monday, 100, 1000, []⟩] ∧
    (∃ r ∈ (controller_update_strength
      ⟨[⟨1, "u", 0⟩], [⟨10, 1, .monday, 100, 1000, []⟩], [⟨2, "u", 100, 2⟩], [], 12⟩
      "u" 100 5).strengths, r.user_id = "u" ∧ r.course_id = 100 ∧ r.strength = 5) := by
  have h := update_strength_frame
    ⟨[⟨1, "u", 0⟩], [⟨10, 1, .monday, 100, 1000, []⟩], [⟨2, "u", 100, 2⟩], [], 12⟩
    "u" 100 5 (by decide)
  exact ⟨h.1, h.2.1, h.2.2.2.2⟩

/-! ## Theorems: read-accessor caching -/

/-- C4 (counterexample): `get_study_plan_by_id` performs no cache interaction
at all.  Run on an empty, healthy cache with the plan present in the store —
a cache miss by any reading — it returns the plan but leaves the cache empty,
instead of populating it with a 30-minute-TTL entry as the claim states
(`get_study_plan_by_week` behaves the same way). -/
theorem get_study_plan_by_id_no_caching_counterexample :
    controller_get_study_plan_by_id ⟨[], false⟩ ⟨[⟨1, "u", 0⟩], [], [], [], 2⟩ "u" 1 =
      .ok (⟨1, "u", 0, []⟩, ⟨[], false⟩) ∧
    controller_get_study_plan_by_week ⟨[], false⟩ ⟨[⟨1, "u", 0⟩], [], [], [], 2⟩ "u"
      (some 0) = .ok (⟨1, "u", 0, []⟩, ⟨[], false⟩) := by
  constructor <;> rfl

/-- C4 (amended): only `getCurrentWeekPlan` and `listPlans` are cache-aside
reads — each first attempts a cache lookup keyed by the user id and on a miss
falls back to persistence, caching the result with a fixed TTL of 1800
seconds (30 minutes).  `getPlanById` and `getPlanByWeek` read persistence
directly: their results are independent of the cache contents and they never
write the cache. -/
theorem read_accessor_caching (cache : Cache) (db : DB) (user_id : String)
    (plan_id week_start : Int) (week_date : Option Int) :
    (∀ out cache', controller_get_study_plan_by_id cache db user_id plan_id =
        .ok (out, cache') → cache' = cache) ∧
    ((controller_get_study_plan_by_id cache db user_id plan_id).map Prod.fst =
      (controller_get_study_plan_by_id ⟨[], false⟩ db user_id plan_id).map Prod.fst) ∧
    (∀ out cache', controller_get_study_plan_by_week cache db user_id week_date =
        .ok (out, cache') → cache' = cache) ∧
    ((controller_get_study_plan_by_week cache db user_id week_date).map Prod.fst =
      (controller_get_study_plan_by_week ⟨[], false⟩ db user_id week_date).map Prod.fst) ∧
    (∀ p, redis_get_json cache ("user_current_week_plan:" ++ user_id) = some (.plan p) →
      controller_get_current_week_plan cache db week_start user_id = .ok (p, cache)) ∧
    (∀ p, redis_get_json cache ("user_current_week_plan:" ++ user_id) = none →
      service_get_current_week_plan db week_start user_id = .ok (some p) →
      controller_get_current_week_plan cache db week_start user_id =
        .ok (p, redis_set_json cache ("user_current_week_plan:" ++ user_id)
          (.plan p) (some 1800))) ∧
    (∀ l, redis_get_json cache ("user_study_plans:" ++ user_id) = some (.plans l) →
      l ≠ [] → controller_get_user_study_plans cache db user_id = .ok (l, cache)) ∧
    (∀ l, redis_get_json cache ("user_study_plans:" ++ user_id) = none →
      ((db.plans.filter fun p => p.user_id == user_id).mapM (buildPlanOut db)) = some l →
      controller_get_user_study_plans cache db user_id =
        .ok (l, redis_set_json cache ("user_study_plans:" ++ user_id)
          (.plans l) (some 1800))) := by
  refine ⟨?_, ?_, ?_, ?_, ?_, ?_, ?_, ?_⟩
  · intro out cache' h
    unfold controller_get_study_plan_by_id at h
    rcases hf : db.plans.find? (fun p => p.id == plan_id) with _ | plan
    · rw [hf] at h
      cases h
    · rw [hf] at h
      dsimp only at h
      by_cases hu : plan.user_id ≠ user_id
      · rw [if_pos hu] at h
        cases h
      · rw [if_neg hu] at h
        rcases hb : buildPlanOut db plan with _ | out'
        · rw [hb] at h
          cases h
        · rw [hb] at h
          simp only [Except.ok.injEq, Prod.mk.injEq] at h
          exact h.2.symm
  · unfold controller_get_study_plan_by_id
    rcases hf : db.plans.find? (fun p => p.id == plan_id) with _ | plan
    · rw [hf]
    · rw [hf]
      dsimp only
      by_cases hu : plan.user_id ≠ user_id
      · simp only [if_pos hu]
      · simp only [if_neg hu]
        rcases hb : buildPlanOut db plan with _ | out' <;> rfl
  · intro out cache' h
    unfold controller_get_study_plan_by_week at h
    rcases week_date with _ | w
    · cases h
    · dsimp only at h
      rcases hf : db.currentWeekPlan user_id w with _ | plan
      · rw [hf] at h
        cases h
      · rw [hf] at h
        dsimp only at h
        rcases hb : buildPlanOut db plan with _ | out'
        · rw [hb] at h
          cases h
        · rw [hb] at h
          simp only [Except.ok.injEq, Prod.mk.injEq] at h
          exact h.2.symm
  · unfold controller_get_study_plan_by_week
    rcases week_date with _ | w
    · rfl
    · dsimp only
      rcases hf : db.currentWeekPlan user_id w with _ | plan
      · rfl
      · dsimp only
        rcases hb : buildPlanOut db plan with _ | out' <;> rfl
  · intro p hhit
    unfold controller_get_current_week_plan
    dsimp only
    rw [hhit]
  · intro p hmiss hsvc
    unfold controller_get_current_week_plan
    dsimp only
    rw [hmiss]
    dsimp only
    rw [hsvc]
  · intro l hhit hne
    unfold controller_get_user_study_plans
    dsimp only
    rw [hhit]
    dsimp only
    rcases l with _ | ⟨x, xs⟩
    · exact absurd rfl hne
    · rfl
  · intro l hmiss hmapM
    unfold controller_get_user_study_plans
    dsimp only
    rw [hmiss]
    dsimp only
    rw [hmapM]

/-- Closed instance of `read_accessor_caching`: a cache miss on
`getCurrentWeekPlan` populates the cache with the persisted plan under a
1800-second TTL. -/
theorem read_accessor_caching_witness :
    controller_get_current_week_plan ⟨[], false⟩ ⟨[⟨1, "u", 0⟩], [], [], [], 2⟩ 0 "u" =
      .ok (⟨1, "u", 0, []⟩, redis_set_json ⟨[], false⟩ ("user_current_week_plan:" ++ "u")
        (.plan ⟨1, "u", 0, []⟩) (some 1800)) :=
  (read_accessor_caching ⟨[], false⟩ ⟨[⟨1, "u", 0⟩], [], [], [], 2⟩ "u" 1 0
    none).2.2.2.2.2.1 ⟨1, "u", 0, []⟩ (by rfl) (by rfl)

/-! ## Theorems: cache failures are non-fatal -/

/-- C5: when every Redis call fails (`broken = true`, i.e. the client raises
`redis.RedisError`, which `handle_redis_error` swallows), every plan read and
write operation still completes with exactly its persistence-backed result:
reads treat the failure as a cache miss, writes skip caching/invalidation,
and no cache failure is ever surfaced as an error.  (`getPlanById` and
`getPlanByWeek` perform no cache calls at all — see
`read_accessor_caching`.) -/
theorem cache_failure_nonfatal (cache : Cache) (db : DB) (user_id : String)
    (week_start plan_id : Int) (from_day to_day : DayOfWeek)
    (data : StudyPlanGenerateIn) (courses : List Course)
    (hbroken : cache.broken = true) :
    controller_get_current_week_plan cache db week_start user_id =
      (match service_get_current_week_plan db week_start user_id with
       | .error e => .error e
       | .ok none => .error (.http 404 "No study plan for current week")
       | .ok (some result) => .ok (result, cache)) ∧
    controller_get_user_study_plans cache db user_id =
      (match (db.plans.filter fun p => p.user_id == user_id).mapM (buildPlanOut db) with
       | none => .error .crash
       | some result => .ok (result, cache)) ∧
    controller_swap_days cache db week_start user_id from_day to_day =
      (if (service_swap_days db week_start user_id from_day to_day).1 then
        .ok ("Days swapped successfully",
          (service_swap_days db week_start user_id from_day to_day).2, cache)
       else .error (.http 400 "Swap failed")) ∧
    controller_delete_study_plan cache db user_id plan_id =
      (controller_delete_study_plan ⟨[], false⟩ db user_id plan_id).map
        (fun r => (r.1, r.2.1, cache)) ∧
    categorize_subjects cache db courses =
      ((courses.partition fun c => decide (c.name ∈ get_core_course_names db)), cache) ∧
    service_generate_study_plan cache db user_id week_start data =
      (generate_study_plan_nocache db user_id week_start data).map
        (fun r => (r.1, r.2, cache)) ∧
    controller_generate_study_plan cache db user_id week_start data =
      (match generate_study_plan_nocache db user_id week_start data with
       | none => .error (.http 400 "Study plan generation failed")
       | some r => .ok (r.1.id, r.2, cache)) := by
  have hget : ∀ key, redis_get_json cache key = none := by
    intro key
    simp [redis_get_json, hbroken]
  have hset : ∀ key v e, redis_set_json cache key v e = cache := by
    intro key v e
    simp [redis_set_json, hbroken]
  have hdel : ∀ key, redis_delete cache key = cache := by
    intro key
    simp [redis_delete, hbroken]
  have hcat : ∀ cs, categorize_subjects cache db cs =
      ((cs.partition fun c => decide (c.name ∈ get_core_course_names db)), cache) := by
    intro cs
    unfold categorize_subjects
    dsimp only
    rw [hget]
    dsimp only
    rw [hset]
  have hgen : service_generate_study_plan cache db user_id week_start data =
      (generate_study_plan_nocache db user_id week_start data).map
        (fun r => (r.1, r.2, cache)) := by
    unfold service_generate_study_plan generate_study_plan_nocache
    dsimp only
    rw [hcat]
    dsimp only
    rw [Option.map_map]
    rfl
  refine ⟨?_, ?_, ?_, ?_, hcat courses, hgen, ?_⟩
  · unfold controller_get_current_week_plan
    dsimp only
    rw [hget]
    dsimp only
    simp only [hset]
  · unfold controller_get_user_study_plans
    dsimp only
    rw [hget]
    dsimp only
    simp only [hset]
  · unfold controller_swap_days
    dsimp only
    by_cases hs : (service_swap_days db week_start user_id from_day to_day).1
    · simp only [if_pos hs, hdel]
    · simp only [if_neg hs]
  · unfold controller_delete_study_plan
    rcases hf : db.plans.find? (fun p => p.id == plan_id) with _ | plan
    · rw [hf]
      rfl
    · rw [hf]
      dsimp only
      by_cases hu : plan.user_id ≠ user_id
      · simp only [if_pos hu]
        rfl
      · simp only [if_neg hu]
        simp [hdel]
        rfl
  · unfold controller_generate_study_plan
    rw [hgen]
    rcases hn : generate_study_plan_nocache db user_id week_start data with _ | r
    · rfl
    · simp [hdel]

/-- Closed instance of `cache_failure_nonfatal`: with a broken cache the
current-week read still returns the persisted plan, and a swap still
succeeds. -/
theorem cache_failure_nonfatal_witness :
    controller_get_current_week_plan ⟨[], true⟩ ⟨[⟨1, "u", 0⟩], [], [], [], 2⟩ 0 "u" =
      .ok (⟨1, "u", 0, []⟩, ⟨[], true⟩) := by
  have h := (cache_failure_nonfatal ⟨[], true⟩ ⟨[⟨1, "u", 0⟩], [], [], [], 2⟩ "u" 0 1
    .monday .tuesday ⟨[], 60, [], []⟩ [] rfl).1
  rw [h]
  rfl

end BrainBridge
